import Mathlib

/-!
Verification of `ecliptic_banner_chart.py`, a batch star-chart generator.

The Python source is shallowly embedded below.  Machine floats are
idealised as exact numbers: values produced by purely rational
arithmetic (tokens of the input files, the Morse encoder) are `ℚ`,
values flowing through trigonometric functions are `ℝ`.  Python
exceptions (`ValueError`, `IndexError`, `KeyError`) are modelled with
`Except PyError`; `try`/`except` blocks become matches on the error.
Python dicts are association lists with overwrite-on-insert, which
keeps keys unique and preserves insertion order, as CPython does.
-/

namespace LasEcliptic

/-- Python exceptions that the program can raise or catch. -/
inductive PyError where
  | valueError
  | indexError
  | keyError
deriving DecidableEq

deriving instance DecidableEq for Except

/-- Concatenation of the images of `f`, in order (Python nested loops that
append to a list). -/
def catMap {α β : Type} (f : α → List β) : List α → List β
  | [] => []
  | a :: r => f a ++ catMap f r

/-- Python dict lookup `d[k]`, as an association-list lookup. -/
def lookupD {α β : Type} [DecidableEq α] (d : List (α × β)) (k : α) : Option β :=
  match d with
  | [] => none
  | (k', v) :: r => if k' = k then some v else lookupD r k

/-- Python dict assignment `d[k] = v`: overwrite the existing entry for `k`,
else append a new one (CPython preserves insertion order). -/
def dictInsert {α β : Type} [DecidableEq α] (d : List (α × β)) (k : α) (v : β) :
    List (α × β) :=
  if d.any (fun p => decide (p.1 = k)) then
    d.map (fun p => if p.1 = k then (k, v) else p)
  else d ++ [(k, v)]

/-- Python `set.add`: sets are modelled as duplicate-free lists in insertion
order. -/
def setAdd (s : List Int) (x : Int) : List Int :=
  if x ∈ s then s else s ++ [x]

/-- ASCII whitespace, for Python `str.strip` / `str.split` (the input files
contain no exotic Unicode whitespace). -/
def isWs (c : Char) : Bool :=
  c = ' ' ∨ c = '\t' ∨ c = '\n' ∨ c = '\r'

/-- Python `str.strip` on a character list. -/
def pyStrip (l : List Char) : List Char :=
  ((l.dropWhile isWs).reverse.dropWhile isWs).reverse

/-- Helper for `pySplit`: accumulate the current token (reversed). -/
def splitAcc : List Char → List Char → List (List Char)
  | [], cur => if cur = [] then [] else [cur.reverse]
  | c :: cs, cur =>
    if isWs c then
      (if cur = [] then splitAcc cs [] else cur.reverse :: splitAcc cs [])
    else splitAcc cs (c :: cur)

/-- Python `str.split()` with no argument: split on whitespace runs,
dropping empty tokens. -/
def pySplit (l : List Char) : List (List Char) := splitAcc l []

/-- Numeric value of a digit string (most significant first). -/
def digitsVal (l : List Char) : Nat :=
  l.foldl (fun n c => 10 * n + (c.toNat - 48)) 0

/-- Python `int(token)`: optional sign then a nonempty digit string,
`ValueError` (here `none`) otherwise. -/
def pyInt? (l : List Char) : Option Int :=
  match l with
  | '-' :: rest =>
    if rest ≠ [] ∧ rest.all Char.isDigit then some (-(digitsVal rest : Int)) else none
  | '+' :: rest =>
    if rest ≠ [] ∧ rest.all Char.isDigit then some (digitsVal rest : Int) else none
  | _ => if l ≠ [] ∧ l.all Char.isDigit then some (digitsVal l : Int) else none

/-- Python `float(token)` on fixed-notation decimals (optional sign, digits,
at most one decimal point, at least one digit), the only shapes appearing in
the catalog; exponents/`inf`/`nan` are outside this model.  The value is
exact, idealising the IEEE rounding away. -/
def pyFloat? (l : List Char) : Option ℚ :=
  let sb : ℚ × List Char :=
    match l with
    | '-' :: r => (-1, r)
    | '+' :: r => (1, r)
    | _ => (1, l)
  let ip := sb.2.takeWhile Char.isDigit
  let rest := sb.2.dropWhile Char.isDigit
  match rest with
  | [] => if ip = [] then none else some (sb.1 * (digitsVal ip : ℚ))
  | '.' :: fp =>
    if fp.all Char.isDigit ∧ (ip ≠ [] ∨ fp ≠ []) then
      some (sb.1 * ((digitsVal ip : ℚ) + (digitsVal fp : ℚ) / (10 : ℚ) ^ fp.length))
    else none
  | _ => none

/-- Python slice `l[a:b]` on a character list (short lines give short or
empty slices, never an error). -/
def pySlice (l : List Char) (a b : Nat) : List Char :=
  (l.drop a).take (b - a)

/-- Python `str.lower()` on the ASCII strings this program handles. -/
def pyLower (s : String) : String :=
  String.mk (s.toList.map (fun c =>
    if 'A' ≤ c ∧ c ≤ 'Z' then Char.ofNat (c.toNat + 32) else c))

/-! ## Figure loader (`get_figures`, source lines 88-115) -/

/-- The inner `for i in range(count)` loop of `get_figures`: pop two tokens,
parse them as ints (`ValueError` if malformed, `IndexError` if exhausted),
append the pair to `fig` and both ids to `stars` (Python mutates the shared
`stars_present` set as it goes). -/
def parsePairs : Nat → List (List Char) → List (Int × Int) → List Int →
    Except PyError (List (Int × Int) × List Int × List (List Char))
  | 0, fields, fig, stars => .ok (fig, stars, fields)
  | n + 1, fields, fig, stars =>
    match fields with
    | [] => .error .indexError
    | t1 :: fields1 =>
      match pyInt? t1 with
      | none => .error .valueError
      | some id1 =>
        match fields1 with
        | [] => .error .indexError
        | t2 :: fields2 =>
          match pyInt? t2 with
          | none => .error .valueError
          | some id2 =>
            parsePairs n fields2 (fig ++ [(id1, id2)]) (setAdd (setAdd stars id1) id2)

/-- The line loop of `get_figures`: skip blank and `#` lines; parse
`NAME COUNT id1 id2 ...`; on leftover tokens print and `break`, returning
the figures read so far (the offending line's figure is not stored, but the
star ids it added remain in `stars_present`); uncaught `ValueError` /
`IndexError` from `int()` / `pop(0)` propagate. -/
def getFiguresLines : List String →
    List (String × List (Int × Int)) → List Int →
    Except PyError (List (String × List (Int × Int)) × List Int)
  | [], figures, stars => .ok (figures, stars)
  | line :: rest, figures, stars =>
    let t := pyStrip line.toList
    if t = [] ∨ t.headD ' ' = '#' then getFiguresLines rest figures stars
    else
      match pySplit t with
      | [] => .error .indexError
      | nameTok :: fields0 =>
        match fields0 with
        | [] => .error .indexError
        | cntTok :: fields1 =>
          match pyInt? cntTok with
          | none => .error .valueError
          | some count =>
            match parsePairs count.toNat fields1 [] stars with
            | .error e => .error e
            | .ok (fig, stars2, leftover) =>
              if leftover.length > 0 then .ok (figures, stars2)
              else getFiguresLines rest (dictInsert figures (String.mk nameTok) fig) stars2

/-- `get_figures` over the list of lines of `constellationship.fab`. -/
def get_figures (lines : List String) :
    Except PyError (List (String × List (Int × Int)) × List Int) :=
  getFiguresLines lines [] []

/-! ## Morse encoder (`morse_coords`, source lines 118-144) -/

/-- The Morse alphabet dict of `morse_coords`, verbatim; note the key
`", "` (comma-space) which a single character can never match. -/
def alphabet : List (String × String) :=
  [("a", ".-"), ("b", "-..."), ("c", "-.-."), ("d", "-.."), ("e", "."), ("f", "..-."),
   ("g", "--."), ("h", "...."), ("i", ".."), ("j", ".---"), ("k", "-.-"), ("l", ".-.."),
   ("m", "--"), ("n", "-."), ("o", "---"), ("p", ".--."), ("q", "--.-"), ("r", ".-."),
   ("s", "..."), ("t", "-"), ("u", "..-"), ("v", "...-"), ("w", ".--"), ("x", "-..-"),
   ("y", "-.--"), ("z", "--.."), ("1", ".----"), ("2", "..---"), ("3", "...--"),
   ("4", "....-"), ("5", "....."), ("6", "-...."), ("7", "--..."), ("8", "---.."),
   ("9", "----."), ("0", "-----"), (", ", "--..--"), (".", ".-.-.-"), ("?", "..--.."),
   ("/", "-..-."), ("-", "-....-"), ("(", "-.--."), (")", "-.--.-")]

/-- The `for symbol in code` loop: a dash is a mark `(x, x+3)` advancing `x`
by 5, anything else (a dot) a mark `(x, x+1)` advancing `x` by 3. -/
def morseSymbols (x : ℚ) (acc : List (ℚ × ℚ)) : List Char → ℚ × List (ℚ × ℚ)
  | [] => (x, acc)
  | s :: rest =>
    if s = '-' then morseSymbols (x + 5) (acc ++ [(x, x + 3)]) rest
    else morseSymbols (x + 3) (acc ++ [(x, x + 1)]) rest

/-- The `for ch in string.strip()` loop of `morse_coords`: a space advances
`x` by 6; any other character is looked up in the alphabet (a `KeyError`,
here `none`, if absent), its symbols are emitted, and `x` advances by a
further 3. -/
def morseRun (x : ℚ) (acc : List (ℚ × ℚ)) : List Char → Option (ℚ × List (ℚ × ℚ))
  | [] => some (x, acc)
  | ch :: rest =>
    if ch = ' ' then morseRun (x + 6) acc rest
    else
      match lookupD alphabet (String.mk [ch]) with
      | none => none
      | some code =>
        let r := morseSymbols x acc code.toList
        morseRun (r.1 + 3) r.2 rest

/-- `morse_coords(string, minc, maxc)`: run the encoder from `x = 0`, then
rescale every mark by `scale = (maxc - minc) / (x - 2)` and shift by
`minc`. -/
def morse_coords (s : String) (minc maxc : ℚ) : Option (List (ℚ × ℚ)) :=
  match morseRun 0 [] (pyStrip s.toList) with
  | none => none
  | some (x, coords) =>
    some (coords.map (fun pr =>
      (pr.1 * ((maxc - minc) / (x - 2)) + minc, pr.2 * ((maxc - minc) / (x - 2)) + minc)))

/-! ## Drawing constants (source lines 31-41) -/

/-- `dwg_dpi = 100`, coordinates per inch. -/
def dwg_dpi : ℚ := 100

/-- `dwg_bleed_width = 8.5 * dwg_dpi`. -/
def dwg_bleed_width : ℚ := 8.5 * dwg_dpi

/-- `dwg_border = 0.5 * dwg_dpi`. -/
def dwg_border : ℚ := 0.5 * dwg_dpi

/-- `dwg_sky_width = dwg_bleed_width - 2 * dwg_border`. -/
def dwg_sky_width : ℚ := dwg_bleed_width - 2 * dwg_border

/-- `dwg_scale = dwg_sky_width / (2 * pi)`. -/
noncomputable def dwg_scale : ℝ := (dwg_sky_width : ℝ) / (2 * Real.pi)

/-- `ecl_to_dwg(lng, lat, max_lng)`: ecliptic to drawing coordinates;
longitude decreases left to right, `max_lng` maps to drawing x = 0. -/
noncomputable def ecl_to_dwg (lng lat max_lng : ℝ) : ℝ × ℝ :=
  (dwg_scale * (max_lng - lng), dwg_scale * (Real.pi / 2 - lat))

/-! ## Star records (source lines 44-60) -/

/-- `math.atan2(y, x)` on exact reals (the signed-zero distinctions of IEEE
floats do not exist here). -/
noncomputable def atan2 (y x : ℝ) : ℝ :=
  if 0 < x then Real.arctan (y / x)
  else if x < 0 then
    (if 0 ≤ y then Real.arctan (y / x) + Real.pi else Real.arctan (y / x) - Real.pi)
  else
    (if 0 < y then Real.pi / 2 else if y < 0 then -(Real.pi / 2) else 0)

/-- The fields of the Python `Star` object. -/
structure Star where
  hip_id : Int
  ra : ℝ
  dec : ℝ
  vmag : ℝ
  ecl_lng : ℝ
  ecl_lat : ℝ
  radius : ℝ

/-- `Star.__init__`: store the inputs and derive the ecliptic coordinates by
rotating the equatorial unit vector about the x-axis by the obliquity
`23.4376°`, plus the display radius. -/
noncomputable def mkStar (hip_id : Int) (ra dec vmag : ℝ) : Star :=
  let equx := Real.cos dec * Real.cos ra
  let equy := Real.cos dec * Real.sin ra
  let equz := Real.sin dec
  let obl : ℝ := 23.4376 * Real.pi / 180
  let eclx := equx
  let ecly := equy * Real.cos obl + equz * Real.sin obl
  let eclz := equz * Real.cos obl - equy * Real.sin obl
  { hip_id := hip_id, ra := ra, dec := dec, vmag := vmag,
    ecl_lng := atan2 ecly eclx,
    ecl_lat := atan2 eclz (Real.sqrt (eclx ^ 2 + ecly ^ 2)),
    radius := dwg_scale * (7 - min 6.5 (0.8 * vmag)) / 400 }

/-- Modelled from the spec's §4.3a wording, for comparison with `mkStar`:
"compute equatorial unit-vector (x,y,z) = (cos dec·cos ra, cos dec·sin ra,
sin dec); rotate by the fixed true-obliquity angle about the x-axis;
ecliptic longitude = atan2(ecly, eclx)". -/
noncomputable def specEclLng (ra dec : ℝ) : ℝ :=
  let equx := Real.cos dec * Real.cos ra
  let equy := Real.cos dec * Real.sin ra
  let equz := Real.sin dec
  let obl : ℝ := 23.4376 * Real.pi / 180
  atan2 (equy * Real.cos obl + equz * Real.sin obl) equx

/-- Modelled from the spec's §4.3a wording, for comparison with `mkStar`:
"ecliptic latitude = atan2(eclz, sqrt(eclx² + ecly²))". -/
noncomputable def specEclLat (ra dec : ℝ) : ℝ :=
  let equx := Real.cos dec * Real.cos ra
  let equy := Real.cos dec * Real.sin ra
  let equz := Real.sin dec
  let obl : ℝ := 23.4376 * Real.pi / 180
  let ecly := equy * Real.cos obl + equz * Real.sin obl
  let eclz := equz * Real.cos obl - equy * Real.sin obl
  atan2 eclz (Real.sqrt (equx ^ 2 + ecly ^ 2))

/-! ## Catalog loader (`load_hip_catalog`, source lines 63-85) -/

/-- The `try` block of `load_hip_catalog`: slice the four fixed-width
fields, strip them and parse (`none` models the caught `ValueError`). -/
def parsedFields (line : String) : Option (Int × ℚ × ℚ × ℚ) :=
  let l := line.toList
  match pyInt? (pyStrip (pySlice l 0 6)) with
  | none => none
  | some hip =>
    match pyFloat? (pyStrip (pySlice l 15 28)) with
    | none => none
    | some ra =>
      match pyFloat? (pyStrip (pySlice l 29 42)) with
      | none => none
      | some dec =>
        match pyFloat? (pyStrip (pySlice l 129 136)) with
        | none => none
        | some vmag => some (hip, ra, dec, vmag)

/-- One iteration of the catalog line loop: on a parse failure discard the
line and count it; skip lines with `vmag > 7.0`; otherwise store the new
`Star` under its id. -/
noncomputable def loadStep (st : List (Int × Star) × Nat) (line : String) :
    List (Int × Star) × Nat :=
  match parsedFields line with
  | none => (st.1, st.2 + 1)
  | some (hip, ra, dec, vmag) =>
    if vmag > 7 then st
    else (dictInsert st.1 hip (mkStar hip (ra : ℝ) (dec : ℝ) (vmag : ℝ)), st.2)

/-- `load_hip_catalog` over the decompressed lines of `hip2.dat.gz`:
returns the catalog and the discarded count. -/
noncomputable def load_hip_catalog (lines : List String) : List (Int × Star) × Nat :=
  lines.foldl loadStep ([], 0)

/-! ## Layout engine (`main`, source lines 164-193) -/

/-- The 12 zodiac figure names, in the program's fixed order. -/
def zodiac : List String :=
  ["Ari", "Tau", "Gem", "Cnc", "Leo", "Vir", "Lib", "Sco", "Sgr", "Aqr", "Psc", "Cap"]

/-- A figure line segment: two (longitude, latitude) endpoints. -/
abbrev Seg : Type := (ℝ × ℝ) × (ℝ × ℝ)

/-- The vertex longitudes of a figure's segments, in traversal order. -/
def figLngs (cps : List Seg) : List ℝ :=
  catMap (fun sg => [sg.1.1, sg.2.1]) cps

/-- Running minimum over a list (the code folds `min` from `+inf`; on the
nonempty lists that occur this is the same fold from the head). -/
noncomputable def listMin : List ℝ → ℝ
  | [] => 0
  | x :: xs => xs.foldl min x

/-- Running maximum over a list (the code folds `max` from `-inf`). -/
noncomputable def listMax : List ℝ → ℝ
  | [] => 0
  | x :: xs => xs.foldl max x

open Classical in
/-- The wraparound fix-up applied to one vertex longitude: add `2π` when it
lies strictly below the figure's raw-span midpoint. -/
noncomputable def shiftIf (center x : ℝ) : ℝ :=
  if x < center then x + 2 * Real.pi else x

open Classical in
/-- Lines 184-193 of `main` for one figure: if the raw longitude span
exceeds `π/4`, shift every vertex longitude below the raw midpoint by `2π`
and recompute the maximum over the shifted vertices; else keep the raw
coordinates and raw maximum. -/
noncomputable def layoutFigure (cps : List Seg) : List Seg × ℝ :=
  let lngs := figLngs cps
  let mn := listMin lngs
  let mx := listMax lngs
  if mx - mn > Real.pi / 4 then
    let c := (mn + mx) / 2
    let cps2 := cps.map (fun sg => ((shiftIf c sg.1.1, sg.1.2), (shiftIf c sg.2.1, sg.2.2)))
    (cps2, listMax (figLngs cps2))
  else (cps, mx)

/-- Lines 174-183 of `main`: resolve a figure's id pairs against the
catalog (`KeyError` when a star is missing) into segment coordinates. -/
noncomputable def figRaw (catalog : List (Int × Star)) :
    List (Int × Int) → Except PyError (List Seg)
  | [] => .ok []
  | (i1, i2) :: ps =>
    match lookupD catalog i1, lookupD catalog i2 with
    | some s1, some s2 =>
      match figRaw catalog ps with
      | .ok rest => .ok (((s1.ecl_lng, s1.ecl_lat), (s2.ecl_lng, s2.ecl_lat)) :: rest)
      | .error e => .error e
    | _, _ => .error .keyError

/-- The `for name in zodiac` layout loop: per name, look the figure up
(`KeyError` when absent), resolve its stars and lay it out, recording
`fig_coords[name]` and `fig_max_lng[name]`. -/
noncomputable def layoutList (catalog : List (Int × Star))
    (figures : List (String × List (Int × Int))) :
    List String → Except PyError (List (String × (List Seg × ℝ)))
  | [] => .ok []
  | n :: ns =>
    match lookupD figures n with
    | none => .error .keyError
    | some idPairs =>
      match figRaw catalog idPairs with
      | .error e => .error e
      | .ok cps =>
        match layoutList catalog figures ns with
        | .ok rest => .ok ((n, layoutFigure cps) :: rest)
        | .error e => .error e

/-- The whole layout pass over the zodiac list. -/
noncomputable def layoutAll (catalog : List (Int × Star))
    (figures : List (String × List (Int × Int))) :
    Except PyError (List (String × (List Seg × ℝ))) :=
  layoutList catalog figures zodiac

/-! ## Drawing emitter (`main`, source lines 195-237) -/

/-- SVG primitives the program emits. -/
inductive SvgElem where
  | rect (x y w h : ℝ)
  | line (x1 y1 x2 y2 : ℝ)
  | circle (cx cy r : ℝ)

/-- An SVG group as created by `make_svg_layer` (its id is the lowercased
layer name). -/
structure SvgGroup where
  id : String
  elems : List SvgElem

/-- One output SVG document. -/
structure Chart where
  filename : String
  width : ℝ
  height : ℝ
  groups : List SvgGroup

open Classical in
/-- Line 207: the angular offset applied to a figure on a given chart,
`-2π` when its max longitude exceeds the anchor's, else `0`. -/
noncomputable def figOffset (figMax anchorMax : ℝ) : ℝ :=
  if figMax > anchorMax then -2 * Real.pi else 0

/-- Lines 204-216, the Figures layer: for each laid-out figure, draw each
segment shifted by its offset and projected by `ecl_to_dwg`. -/
noncomputable def figElems (figd : List (String × (List Seg × ℝ)))
    (anchorMax max_lng : ℝ) : List SvgElem :=
  catMap (fun nd =>
    nd.2.1.map (fun sg =>
      SvgElem.line (ecl_to_dwg (sg.1.1 + figOffset nd.2.2 anchorMax) sg.1.2 max_lng).1
        (ecl_to_dwg (sg.1.1 + figOffset nd.2.2 anchorMax) sg.1.2 max_lng).2
        (ecl_to_dwg (sg.2.1 + figOffset nd.2.2 anchorMax) sg.2.2 max_lng).1
        (ecl_to_dwg (sg.2.1 + figOffset nd.2.2 anchorMax) sg.2.2 max_lng).2)) figd

open Classical in
/-- Lines 221-227, one star on the Stars layer: try the three offsets
`-2π, 0, 2π`; keep an instance when its drawing x lies strictly inside
`(0, dwg_bleed_width)`, and draw it only when the star is brighter than
magnitude 3.5 or referenced by a figure line. -/
noncomputable def starCircles (used : List Int) (max_lng : ℝ) (s : Star) : List SvgElem :=
  catMap (fun o =>
    if 0 < (ecl_to_dwg (s.ecl_lng + o) s.ecl_lat max_lng).1 ∧
        (ecl_to_dwg (s.ecl_lng + o) s.ecl_lat max_lng).1 < (dwg_bleed_width : ℝ) then
      (if s.vmag < 3.5 ∨ s.hip_id ∈ used then
        [SvgElem.circle (ecl_to_dwg (s.ecl_lng + o) s.ecl_lat max_lng).1
          (ecl_to_dwg (s.ecl_lng + o) s.ecl_lat max_lng).2 s.radius]
      else [])
    else []) [-2 * Real.pi, 0, 2 * Real.pi]

/-- Insert into an Int-sorted list (ascending), for Python `sorted`. -/
def insertInt (x : Int) : List Int → List Int
  | [] => [x]
  | y :: ys => if x ≤ y then x :: y :: ys else y :: insertInt x ys

/-- Python `sorted` on integers (insertion sort). -/
def sortInts (l : List Int) : List Int := l.foldr insertInt []

/-- Lexicographic byte-order comparison of strings, as Python `<=` on
`str` restricted to ASCII. -/
def strLe : List Char → List Char → Bool
  | [], _ => true
  | _ :: _, [] => false
  | a :: as, b :: bs =>
    if a.toNat < b.toNat then true
    else if b.toNat < a.toNat then false
    else strLe as bs

/-- Insert into a string-sorted list (ascending). -/
def insertStr (x : String) : List String → List String
  | [] => [x]
  | y :: ys => if strLe x.toList y.toList then x :: y :: ys else y :: insertStr x ys

/-- Python `sorted` on strings (insertion sort). -/
def sortStrs (l : List String) : List String := l.foldr insertStr []

/-- Lines 218-227, the Stars layer: iterate the catalog in sorted key
order and emit each star's kept instances. -/
noncomputable def starElems (catalog : List (Int × Star)) (used : List Int)
    (max_lng : ℝ) : List SvgElem :=
  catMap (fun hid =>
    match lookupD catalog hid with
    | some s => starCircles used max_lng s
    | none => []) (sortInts (catalog.map Prod.fst))

/-- The decorative text encoded on every chart. -/
def morseText : String := "the ecliptic -- lackawanna astronomical society"

/-- Lines 196-236: emit one chart for a given anchor figure.  The anchor's
max longitude is looked up (`KeyError` if absent), the chart reference is
that plus the border in longitude units, and the four layers are built in
order; an unknown Morse character would raise a `KeyError`. -/
noncomputable def renderChart (catalog : List (Int × Star)) (used : List Int)
    (figd : List (String × (List Seg × ℝ))) (anchor : String) : Except PyError Chart :=
  match lookupD figd anchor with
  | none => .error .keyError
  | some ad =>
    let max_lng : ℝ := ad.2 + (dwg_border : ℝ) / dwg_scale
    match morse_coords morseText dwg_border (dwg_bleed_width - dwg_border) with
    | none => .error .keyError
    | some mcoords =>
      .ok
        { filename := "ecliptic_chart_beginning_with_" ++ pyLower anchor ++ ".svg",
          width := (dwg_bleed_width : ℝ),
          height := Real.pi * dwg_scale,
          groups :=
            [⟨"background",
              [SvgElem.rect 0 0 (dwg_bleed_width : ℝ) (Real.pi * dwg_scale)]⟩,
             ⟨"figures", figElems figd ad.2 max_lng⟩,
             ⟨"stars", starElems catalog used max_lng⟩,
             ⟨"ecliptic", mcoords.map (fun pr =>
               SvgElem.line (pr.1 : ℝ) (ecl_to_dwg 0 0 max_lng).2
                 (pr.2 : ℝ) (ecl_to_dwg 0 0 max_lng).2)⟩] }

/-- Sequence a list of `Except` computations (the chart loop stops at the
first uncaught exception). -/
def mapE {α β : Type} (f : α → Except PyError β) : List α → Except PyError (List β)
  | [] => .ok []
  | a :: r =>
    match f a with
    | .error e => .error e
    | .ok b =>
      match mapE f r with
      | .error e => .error e
      | .ok bs => .ok (b :: bs)

/-- Lines 164-237 of `main` after the two loads: lay out the zodiac
figures, then emit one chart per anchor name in sorted order. -/
noncomputable def mainCharts (catalog : List (Int × Star))
    (figures : List (String × List (Int × Int))) (used : List Int) :
    Except PyError (List Chart) :=
  match layoutAll catalog figures with
  | .error e => .error e
  | .ok figd => mapE (renderChart catalog used figd) (sortStrs zodiac)

/-! ## Helper lemmas -/

lemma mem_setAdd_of_mem {s : List Int} {y : Int} (x : Int) (h : y ∈ s) :
    y ∈ setAdd s x := by
  unfold setAdd
  split <;> simp [h]

lemma mem_setAdd_self (s : List Int) (x : Int) : x ∈ setAdd s x := by
  unfold setAdd
  split <;> simp_all

lemma parsePairs_stars_mono :
    ∀ (n : Nat) (toks : List (List Char)) (fig0 : List (Int × Int)) (stars0 : List Int)
      (fig : List (Int × Int)) (stars2 : List Int) (left : List (List Char)),
      parsePairs n toks fig0 stars0 = Except.ok (fig, stars2, left) →
      ∀ x ∈ stars0, x ∈ stars2 := by
  intro n
  induction n with
  | zero =>
    intro toks fig0 stars0 fig stars2 left h x hx
    simp only [parsePairs] at h
    cases h
    exact hx
  | succ m ih =>
    intro toks fig0 stars0 fig stars2 left h x hx
    simp only [parsePairs] at h
    split at h
    · cases h
    · split at h
      · cases h
      · split at h
        · cases h
        · split at h
          · cases h
          · exact ih _ _ _ _ _ _ h x (mem_setAdd_of_mem _ (mem_setAdd_of_mem _ hx))

lemma parsePairs_pairs_mem :
    ∀ (n : Nat) (toks : List (List Char)) (fig0 : List (Int × Int)) (stars0 : List Int)
      (fig : List (Int × Int)) (stars2 : List Int) (left : List (List Char)),
      parsePairs n toks fig0 stars0 = Except.ok (fig, stars2, left) →
      ∀ p ∈ fig, p ∈ fig0 ∨ (p.1 ∈ stars2 ∧ p.2 ∈ stars2) := by
  intro n
  induction n with
  | zero =>
    intro toks fig0 stars0 fig stars2 left h p hp
    simp only [parsePairs] at h
    cases h
    exact Or.inl hp
  | succ m ih =>
    intro toks fig0 stars0 fig stars2 left h p hp
    simp only [parsePairs] at h
    split at h
    · cases h
    · split at h
      · cases h
      · split at h
        · cases h
        · split at h
          · cases h
          · rcases ih _ _ _ _ _ _ h p hp with hin | hids
            · rcases List.mem_append.mp hin with hold | hnew
              · exact Or.inl hold
              · right
                rcases List.mem_singleton.mp hnew with rfl
                refine ⟨parsePairs_stars_mono _ _ _ _ _ _ _ h _
                  (mem_setAdd_of_mem _ (mem_setAdd_self _ _)), ?_⟩
                exact parsePairs_stars_mono _ _ _ _ _ _ _ h _ (mem_setAdd_self _ _)
            · exact Or.inr hids

lemma mem_dictInsert {α β : Type} [DecidableEq α] (d : List (α × β)) (k : α) (v : β) :
    ∀ e ∈ dictInsert d k v, e ∈ d ∨ e = (k, v) := by
  intro e he
  unfold dictInsert at he
  split at he
  · rcases List.mem_map.mp he with ⟨p, hp, hpe⟩
    by_cases hk : p.1 = k
    · right; rw [if_pos hk] at hpe; exact hpe.symm
    · left; rw [if_neg hk] at hpe; exact hpe ▸ hp
  · rcases List.mem_append.mp he with h | h
    · exact Or.inl h
    · exact Or.inr (List.mem_singleton.mp h)

lemma keys_dictInsert_nodup {α β : Type} [DecidableEq α] (d : List (α × β)) (k : α) (v : β)
    (h : (d.map Prod.fst).Nodup) : ((dictInsert d k v).map Prod.fst).Nodup := by
  unfold dictInsert
  split
  · have : (d.map (fun p => if p.1 = k then (k, v) else p)).map Prod.fst = d.map Prod.fst := by
      rw [List.map_map]
      apply List.map_congr_left
      intro p _
      by_cases hk : p.1 = k
      · simp [hk]
      · simp [hk]
    rw [this]
    exact h
  · rename_i hany
    have hk : k ∉ d.map Prod.fst := by
      intro hmem
      rcases List.mem_map.mp hmem with ⟨p, hp, hpk⟩
      exact hany (List.any_eq_true.mpr ⟨p, hp, by simp [hpk]⟩)
    rw [List.map_append]
    simp only [List.map_cons, List.map_nil]
    rw [List.nodup_append]
    refine ⟨h, List.nodup_singleton k, ?_⟩
    intro a ha hm
    exact hk ((List.mem_singleton.mp hm) ▸ ha)

lemma dictInsert_length_le {α β : Type} [DecidableEq α] (d : List (α × β)) (k : α) (v : β) :
    (dictInsert d k v).length ≤ d.length + 1 := by
  unfold dictInsert
  split
  · simp
  · simp

lemma loadStep_le (st : List (Int × Star) × Nat) (line : String) :
    (loadStep st line).1.length + (loadStep st line).2 ≤ st.1.length + st.2 + 1 := by
  unfold loadStep
  cases parsedFields line with
  | none => simp; omega
  | some f =>
    obtain ⟨hip, ra, dec, vmag⟩ := f
    simp only
    split
    · omega
    · have := dictInsert_length_le st.1 hip (mkStar hip (ra : ℝ) (dec : ℝ) (vmag : ℝ))
      simp only
      omega

lemma foldl_load_le :
    ∀ (lines : List String) (st : List (Int × Star) × Nat),
      (lines.foldl loadStep st).1.length + (lines.foldl loadStep st).2 ≤
        st.1.length + st.2 + lines.length := by
  intro lines
  induction lines with
  | nil => intro st; simp
  | cons line rest ih =>
    intro st
    have h1 := loadStep_le st line
    have h2 := ih (loadStep st line)
    simp only [List.foldl_cons, List.length_cons]
    omega

lemma load_inv :
    ∀ (lines : List String) (st : List (Int × Star) × Nat),
      (st.1.map Prod.fst).Nodup → (∀ e ∈ st.1, e.2.vmag ≤ 7) →
      ((lines.foldl loadStep st).1.map Prod.fst).Nodup ∧
        ∀ e ∈ (lines.foldl loadStep st).1, e.2.vmag ≤ 7 := by
  intro lines
  induction lines with
  | nil => intro st h1 h2; exact ⟨h1, h2⟩
  | cons line rest ih =>
    intro st h1 h2
    simp only [List.foldl_cons]
    apply ih
    · unfold loadStep
      cases parsedFields line with
      | none => exact h1
      | some f =>
        obtain ⟨hip, ra, dec, vmag⟩ := f
        simp only
        split
        · exact h1
        · exact keys_dictInsert_nodup st.1 hip _ h1
    · unfold loadStep
      cases hp : parsedFields line with
      | none => exact h2
      | some f =>
        obtain ⟨hip, ra, dec, vmag⟩ := f
        simp only
        split
        · exact h2
        · rename_i hmag
          intro e he
          rcases mem_dictInsert st.1 hip _ e he with hold | hnew
          · exact h2 e hold
          · rw [hnew]
            show ((vmag : ℚ) : ℝ) ≤ 7
            have : vmag ≤ (7 : ℚ) := le_of_not_lt hmag
            exact_mod_cast this

lemma le_foldl_max (xs : List ℝ) : ∀ a : ℝ, a ≤ xs.foldl max a := by
  induction xs with
  | nil => intro a; simp
  | cons x xs ih =>
    intro a
    simp only [List.foldl_cons]
    exact le_trans (le_max_left a x) (ih (max a x))

lemma mem_le_foldl_max (xs : List ℝ) : ∀ (a y : ℝ), y ∈ xs → y ≤ xs.foldl max a := by
  induction xs with
  | nil => intro a y hy; cases hy
  | cons x xs ih =>
    intro a y hy
    simp only [List.foldl_cons]
    rcases List.mem_cons.mp hy with rfl | hy
    · exact le_trans (le_max_right a y) (le_foldl_max xs (max a y))
    · exact ih (max a x) y hy

lemma foldl_max_cases (xs : List ℝ) : ∀ a : ℝ, xs.foldl max a = a ∨ xs.foldl max a ∈ xs := by
  induction xs with
  | nil => intro a; exact Or.inl rfl
  | cons x xs ih =>
    intro a
    simp only [List.foldl_cons]
    rcases ih (max a x) with h | h
    · rcases max_choice a x with hm | hm
      · exact Or.inl (h.trans hm)
      · right; rw [h, hm]; exact List.mem_cons_self x xs
    · exact Or.inr (List.mem_cons_of_mem x h)

lemma le_listMax (l : List ℝ) (y : ℝ) (hy : y ∈ l) : y ≤ listMax l := by
  cases l with
  | nil => cases hy
  | cons x xs =>
    rw [listMax]
    rcases List.mem_cons.mp hy with rfl | hy
    · exact le_foldl_max xs y
    · exact mem_le_foldl_max xs x y hy

lemma listMax_mem (l : List ℝ) (h : l ≠ []) : listMax l ∈ l := by
  cases l with
  | nil => exact absurd rfl h
  | cons x xs =>
    rw [listMax]
    rcases foldl_max_cases xs x with h1 | h1
    · rw [h1]; exact List.mem_cons_self x xs
    · exact List.mem_cons_of_mem x h1

lemma figLngs_ne_nil {cps : List Seg} (h : cps ≠ []) : figLngs cps ≠ [] := by
  cases cps with
  | nil => exact absurd rfl h
  | cons sg r => simp [figLngs, catMap]

/-! ## Claim C1 (Morse encoder on input "a") -/

lemma morse_a_run :
    morseRun 0 [] (pyStrip "a".toList) =
      some (0 + 3 + 5 + 3, [((0 : ℚ), 0 + 1), (0 + 3, 0 + 3 + 3)]) := rfl

/-- Claim C1 counterexample: at `minc = 0`, `maxc = 9` the two marks of
`morse_coords "a"` are `(0,1)` and `(3,6)` — not the claimed dash `(4,7)` —
and the last mark ends at `6`, not at `maxc = 9`. -/
theorem morse_a_cex :
    morse_coords "a" 0 9 = some [(0, 1), (3, 6)] ∧
    ((morse_coords "a" 0 9).getD []).getLast?.map Prod.snd ≠ some (9 : ℚ) := by
  have h : morse_coords "a" 0 9 = some [(0, 1), (3, 6)] := by
    unfold morse_coords
    rw [morse_a_run]
    norm_num
  refine ⟨h, ?_⟩
  rw [h]
  simp only [Option.getD_some, List.getLast?, Option.map_some]
  intro hc
  have := Option.some.inj hc
  norm_num at this

/-- Claim C1 as amended: encoding `"a"` yields a dot then a dash with raw
coordinates `(0,1)` and `(3,6)`, the raw cursor ending at `x = 11` before
`x - 2` is used as the scaling span; after rescaling the first mark starts
exactly at `minc` and the marks are `(minc, minc + s)`, `(minc + 3s, minc + 6s)`
for `s = (maxc - minc)/9`, so the last mark ends at `minc + (2/3)(maxc - minc)`,
not at `maxc`. -/
theorem morse_a_marks (minc maxc : ℚ) :
    morseRun 0 [] (pyStrip "a".toList) = some (11, [(0, 1), (3, 6)]) ∧
    morse_coords "a" minc maxc =
      some [(minc, minc + (maxc - minc) / 9),
            (minc + (maxc - minc) / 3, minc + (maxc - minc) * 2 / 3)] := by
  have h : morseRun 0 [] (pyStrip "a".toList) = some (11, [(0, 1), (3, 6)]) := by
    rw [morse_a_run]
    norm_num
  refine ⟨h, ?_⟩
  unfold morse_coords
  rw [h]
  simp only [List.map_cons, List.map_nil, Option.some.injEq, List.cons.injEq, Prod.mk.injEq]
  norm_num
  refine ⟨by ring, by ring, by ring⟩

/-! ## Claim C2 (figure loader error handling) -/

/-- Claim C2 counterexample: on a line whose count token is malformed,
`get_figures` does not return a partial result — the `ValueError` from
`int()` propagates uncaught. -/
theorem figures_malformed_cex :
    get_figures ["Ori one 100 200"] = Except.error PyError.valueError ∧
    ¬ ∃ r, get_figures ["Ori one 100 200"] = Except.ok r := by
  refine ⟨by decide, ?_⟩
  rintro ⟨r, hr⟩
  rw [show get_figures ["Ori one 100 200"] = Except.error PyError.valueError by decide] at hr
  cases hr

/-- Claim C2 as amended: only the extra-token case is handled — a line with
leftover tokens after name+count+pairs halts further line processing and the
partial result (without that line's figure) is returned; blank and `#` lines
are skipped; `"Ori 1 100 200"` yields figure `"Ori" = [(100,200)]` and
`"Ori 1 100 200 999"` halts so later lines are not read. -/
theorem figures_loader_behavior :
    get_figures ["Ori 1 100 200"] = Except.ok ([("Ori", [(100, 200)])], [100, 200]) ∧
    get_figures ["Ori 1 100 200 999", "Leo 1 5 6"] = Except.ok ([], [100, 200]) ∧
    get_figures ["# c", "", "Aaa 1 1 2", "Ori 1 100 200 999", "Bbb 1 7 8"] =
      Except.ok ([("Aaa", [(1, 2)])], [1, 2, 100, 200]) := by
  refine ⟨by decide, by decide, by decide⟩

/-! ## Claim C10 (stars of the offending line are kept) -/

/-- Claim C10: when the loader halts on a line with leftover tokens, the
returned figure dict is unchanged (the offending figure is absent) while the
returned used-star set is the updated one, containing both ids of every pair
parsed from the offending line. -/
theorem figures_halt_stars_kept
    (figures : List (String × List (Int × Int))) (stars : List Int)
    (rest : List String) (line : String) (nameTok cntTok : List Char)
    (toks : List (List Char)) (c : Int) (fig : List (Int × Int)) (stars2 : List Int)
    (leftover : List (List Char))
    (hblank : ¬ (pyStrip line.toList = [] ∨ (pyStrip line.toList).headD ' ' = '#'))
    (hsplit : pySplit (pyStrip line.toList) = nameTok :: cntTok :: toks)
    (hcnt : pyInt? cntTok = some c)
    (hpairs : parsePairs c.toNat toks [] stars = Except.ok (fig, stars2, leftover))
    (hleft : leftover ≠ []) :
    getFiguresLines (line :: rest) figures stars = Except.ok (figures, stars2) ∧
    ∀ p ∈ fig, p.1 ∈ stars2 ∧ p.2 ∈ stars2 := by
  constructor
  · rw [getFiguresLines, if_neg hblank]
    simp only [hsplit, hcnt, hpairs]
    rw [if_pos (by simpa [List.length_pos] using hleft)]
  · intro p hp
    rcases parsePairs_pairs_mem _ _ _ _ _ _ _ hpairs p hp with h | h
    · cases h
    · exact h

/-- Witness for C10 at the offending line `"Ori 1 100 200 999"`. -/
theorem figures_halt_stars_kept_w :
    (¬ (pyStrip "Ori 1 100 200 999".toList = [] ∨
        (pyStrip "Ori 1 100 200 999".toList).headD ' ' = '#')) ∧
    pySplit (pyStrip "Ori 1 100 200 999".toList) =
      "Ori".toList :: "1".toList :: ["100".toList, "200".toList, "999".toList] ∧
    pyInt? "1".toList = some 1 ∧
    parsePairs (1 : Int).toNat ["100".toList, "200".toList, "999".toList] [] [] =
      Except.ok ([(100, 200)], [100, 200], ["999".toList]) ∧
    (["999".toList] : List (List Char)) ≠ [] ∧
    (getFiguresLines ["Ori 1 100 200 999"] [] [] = Except.ok ([], [100, 200]) ∧
      ∀ p ∈ [((100 : Int), (200 : Int))], p.1 ∈ [100, 200] ∧ p.2 ∈ [100, 200]) := by
  refine ⟨by decide, by decide, by decide, by decide, by decide, ?_⟩
  exact figures_halt_stars_kept [] [] [] "Ori 1 100 200 999" "Ori".toList "1".toList
    ["100".toList, "200".toList, "999".toList] 1 [(100, 200)] [100, 200] ["999".toList]
    (by decide) (by decide) (by decide) (by decide) (by decide)

/-! ## Claim C5 (catalog loader discards malformed lines) -/

/-- Claim C5: a line whose four sliced fields fail to parse is discarded —
the catalog is unchanged and the discarded count increments by exactly one,
the fold then continuing with the next line — and the number of loaded
records plus discarded records never exceeds the number of lines read; no
exception escapes (the model of the `try` block is the total function
`parsedFields`). -/
theorem catalog_discard_behavior :
    (∀ st line, parsedFields line = none → loadStep st line = (st.1, st.2 + 1)) ∧
    (∀ lines, (load_hip_catalog lines).1.length + (load_hip_catalog lines).2 ≤
      lines.length) := by
  constructor
  · intro st line h
    unfold loadStep
    rw [h]
  · intro lines
    have := foldl_load_le lines ([], 0)
    unfold load_hip_catalog
    simpa using this

/-- Witness for C5: a garbage line is discarded and counted. -/
theorem catalog_discard_w :
    parsedFields "garbage" = none ∧ loadStep ([], 0) "garbage" = ([], 0 + 1) :=
  ⟨by decide, catalog_discard_behavior.1 ([], 0) "garbage" (by decide)⟩

/-! ## Claim C6 (catalog invariant: unique ids, magnitude threshold) -/

/-- Claim C6: the loaded catalog has pairwise-distinct star identifiers and
every stored record has magnitude at most `7.0`; a parsed line whose
magnitude exceeds `7.0` is skipped leaving the state — catalog and
discarded count — exactly unchanged. -/
theorem catalog_invariant :
    (∀ lines, ((load_hip_catalog lines).1.map Prod.fst).Nodup ∧
      ∀ e ∈ (load_hip_catalog lines).1, e.2.vmag ≤ 7) ∧
    (∀ st line hip ra dec vmag, parsedFields line = some (hip, ra, dec, vmag) →
      vmag > 7 → loadStep st line = st) := by
  constructor
  · intro lines
    exact load_inv lines ([], 0) (by simp) (by simp)
  · intro st line hip ra dec vmag hp hv
    simp only [loadStep, hp]
    rw [if_pos hv]

/-- Auxiliary: `n` spaces. -/
def spaces (n : Nat) : String := String.mk (List.replicate n ' ')

/-- A syntactically valid catalog line (136 characters) whose magnitude
field reads `9`, above the `7.0` threshold. -/
def dimLine : String :=
  "     2" ++ spaces 9 ++ "1" ++ spaces 12 ++ spaces 1 ++ "0" ++ spaces 12 ++
    spaces 87 ++ "9" ++ spaces 6

lemma parsedFields_dimLine : parsedFields dimLine = some (2, 1, 0, 9) := by
  have h : parsedFields dimLine =
      some (2, (1 : ℚ) * (digitsVal ['1'] : ℚ), (1 : ℚ) * (digitsVal ['0'] : ℚ),
        (1 : ℚ) * (digitsVal ['9'] : ℚ)) := rfl
  rw [h]
  have e1 : digitsVal ['1'] = 1 := by decide
  have e0 : digitsVal ['0'] = 0 := by decide
  have e9 : digitsVal ['9'] = 9 := by decide
  rw [e1, e0, e9]
  norm_num

/-- Witness for C6: the dim line parses, its magnitude exceeds the
threshold, and the loader state is unchanged by it. -/
theorem catalog_invariant_w :
    parsedFields dimLine = some (2, 1, 0, 9) ∧ ((9 : ℚ) > 7) ∧
    loadStep ([], 0) dimLine = ([], 0) :=
  ⟨parsedFields_dimLine, by norm_num,
    catalog_invariant.2 ([], 0) dimLine 2 1 0 9 parsedFields_dimLine (by norm_num)⟩

/-! ## Claim C7 (equatorial to ecliptic rotation) -/

/-- Claim C7: the ecliptic longitude and latitude stored by `Star.__init__`
equal the spec's stated rotation of the equatorial unit vector by the fixed
obliquity about the x-axis; the computation is a pure function of
`(ra, dec)`. -/
theorem star_rotation_spec (hip : Int) (ra dec vmag : ℝ) :
    (mkStar hip ra dec vmag).ecl_lng = specEclLng ra dec ∧
    (mkStar hip ra dec vmag).ecl_lat = specEclLat ra dec :=
  ⟨rfl, rfl⟩

/-! ## Claim C8 (per-figure longitude offset) -/

/-- Claim C8: the offset applied to a figure's segments on a chart is
exactly `-2π` when the figure's recorded max longitude exceeds the
anchor's, and exactly `0` otherwise. -/
theorem figure_offset_choice (figMax anchorMax : ℝ) :
    (figMax > anchorMax → figOffset figMax anchorMax = -2 * Real.pi) ∧
    (¬ figMax > anchorMax → figOffset figMax anchorMax = 0) := by
  constructor
  · intro h
    unfold figOffset
    rw [if_pos h]
  · intro h
    unfold figOffset
    rw [if_neg h]

/-- Witness for C8 at concrete max longitudes `1 > 0` and `0 < 1`. -/
theorem figure_offset_choice_w :
    figOffset 1 0 = -2 * Real.pi ∧ figOffset 0 1 = 0 :=
  ⟨(figure_offset_choice 1 0).1 (by norm_num),
   (figure_offset_choice 0 1).2 (by norm_num)⟩

/-! ## Claim C3 (wraparound layout) -/

/-- Claim C3: when a nonempty figure's raw longitude span exceeds `π/4`,
the layout shifts exactly the vertex longitudes strictly below the raw-span
midpoint by `+2π` and records as max longitude the true maximum of the
shifted vertex set; when the span is at most `π/4` the figure keeps its raw
coordinates and its raw maximum (again the true maximum of its vertices). -/
theorem figure_wrap_layout (cps : List Seg) (h : cps ≠ []) :
    (listMax (figLngs cps) - listMin (figLngs cps) > Real.pi / 4 →
      (layoutFigure cps).1 = cps.map (fun sg =>
        ((shiftIf ((listMin (figLngs cps) + listMax (figLngs cps)) / 2) sg.1.1, sg.1.2),
         (shiftIf ((listMin (figLngs cps) + listMax (figLngs cps)) / 2) sg.2.1, sg.2.2))) ∧
      (∀ x : ℝ, x < (listMin (figLngs cps) + listMax (figLngs cps)) / 2 →
        shiftIf ((listMin (figLngs cps) + listMax (figLngs cps)) / 2) x = x + 2 * Real.pi) ∧
      (∀ x : ℝ, ¬ x < (listMin (figLngs cps) + listMax (figLngs cps)) / 2 →
        shiftIf ((listMin (figLngs cps) + listMax (figLngs cps)) / 2) x = x) ∧
      (layoutFigure cps).2 ∈ figLngs (layoutFigure cps).1 ∧
      (∀ y ∈ figLngs (layoutFigure cps).1, y ≤ (layoutFigure cps).2)) ∧
    (¬ listMax (figLngs cps) - listMin (figLngs cps) > Real.pi / 4 →
      layoutFigure cps = (cps, listMax (figLngs cps)) ∧
      listMax (figLngs cps) ∈ figLngs cps ∧
      ∀ y ∈ figLngs cps, y ≤ listMax (figLngs cps)) := by
  constructor
  · intro hgt
    have hL : layoutFigure cps =
        (cps.map (fun sg =>
          ((shiftIf ((listMin (figLngs cps) + listMax (figLngs cps)) / 2) sg.1.1, sg.1.2),
           (shiftIf ((listMin (figLngs cps) + listMax (figLngs cps)) / 2) sg.2.1, sg.2.2))),
         listMax (figLngs (cps.map (fun sg =>
          ((shiftIf ((listMin (figLngs cps) + listMax (figLngs cps)) / 2) sg.1.1, sg.1.2),
           (shiftIf ((listMin (figLngs cps) + listMax (figLngs cps)) / 2) sg.2.1, sg.2.2)))))) := by
      simp only [layoutFigure]
      rw [if_pos hgt]
    refine ⟨by rw [hL], ?_, ?_, ?_, ?_⟩
    · intro x hx; unfold shiftIf; rw [if_pos hx]
    · intro x hx; unfold shiftIf; rw [if_neg hx]
    · rw [hL]
      exact listMax_mem _ (figLngs_ne_nil (by simpa using h))
    · rw [hL]
      intro y hy
      exact le_listMax _ y hy
  · intro hle
    have hL : layoutFigure cps = (cps, listMax (figLngs cps)) := by
      simp only [layoutFigure]
      rw [if_neg hle]
    exact ⟨hL, listMax_mem _ (figLngs_ne_nil h), fun y hy => le_listMax _ y hy⟩

/-- Witness for C3 at the one-segment figure `((0,0),(4,0))`, whose raw
span `4` exceeds `π/4`: its recorded max longitude is attained on its laid
out vertex set. -/
theorem figure_wrap_layout_w :
    (([(((0 : ℝ), (0 : ℝ)), ((4 : ℝ), (0 : ℝ)))] : List Seg) ≠ []) ∧
    (layoutFigure [(((0 : ℝ), (0 : ℝ)), ((4 : ℝ), (0 : ℝ)))]).2 ∈
      figLngs (layoutFigure [(((0 : ℝ), (0 : ℝ)), ((4 : ℝ), (0 : ℝ)))]).1 := by
  have hne : ([(((0 : ℝ), (0 : ℝ)), ((4 : ℝ), (0 : ℝ)))] : List Seg) ≠ [] := by simp
  have hspan : listMax (figLngs [(((0 : ℝ), (0 : ℝ)), ((4 : ℝ), (0 : ℝ)))]) -
      listMin (figLngs [(((0 : ℝ), (0 : ℝ)), ((4 : ℝ), (0 : ℝ)))]) > Real.pi / 4 := by
    have h1 : figLngs [(((0 : ℝ), (0 : ℝ)), ((4 : ℝ), (0 : ℝ)))] = [0, 4] := by
      simp [figLngs, catMap]
    rw [h1]
    have h2 : listMax [(0 : ℝ), 4] = 4 := by
      rw [listMax]
      simp
    have h3 : listMin [(0 : ℝ), 4] = 0 := by
      rw [listMin]
      simp
    rw [h2, h3]
    nlinarith [Real.pi_lt_d2]
  exact ⟨hne,
    ((figure_wrap_layout [(((0 : ℝ), (0 : ℝ)), ((4 : ℝ), (0 : ℝ)))] hne).1 hspan).2.2.2.1⟩

/-! ## Claim C4 (stars drawn at three candidate offsets) -/

lemma mem_ite_list {α : Type} (p q : Prop) [Decidable p] [Decidable q] (x e : α) :
    e ∈ (if p then (if q then [x] else []) else []) ↔ p ∧ q ∧ e = x := by
  split_ifs with h1 h2
  · simp [h1, h2]
  · simp [h1, h2]
  · simp [h1]

lemma len_ite_list {α : Type} (p q : Prop) [Decidable p] [Decidable q] (x : α) :
    (if p then (if q then [x] else []) else []).length ≤ 1 := by
  split_ifs <;> simp

lemma dwg_sky_width_real : ((dwg_sky_width : ℚ) : ℝ) = 750 := by
  norm_num [dwg_sky_width, dwg_bleed_width, dwg_border, dwg_dpi]

lemma dwg_bleed_width_real : ((dwg_bleed_width : ℚ) : ℝ) = 850 := by
  norm_num [dwg_bleed_width, dwg_dpi]

lemma dwg_border_real : ((dwg_border : ℚ) : ℝ) = 50 := by
  norm_num [dwg_border, dwg_dpi]

/-- A star instance cannot be kept at both extreme offsets: the two
drawing-x values differ by one full sky width, `750`, and sit `1500`
apart relative to the `(0, 850)` window. -/
lemma not_both_extremes (s : Star) (max_lng : ℝ) :
    ¬ ((ecl_to_dwg (s.ecl_lng + -2 * Real.pi) s.ecl_lat max_lng).1 < (dwg_bleed_width : ℝ) ∧
       0 < (ecl_to_dwg (s.ecl_lng + 2 * Real.pi) s.ecl_lat max_lng).1) := by
  rintro ⟨hA, hC⟩
  unfold ecl_to_dwg dwg_scale at hA hC
  rw [dwg_sky_width_real] at hA hC
  rw [dwg_bleed_width_real] at hA
  have hpi := Real.pi_pos
  have e1 : max_lng - (s.ecl_lng + -2 * Real.pi) =
      (max_lng - s.ecl_lng) + 2 * Real.pi := by ring
  have e2 : max_lng - (s.ecl_lng + 2 * Real.pi) =
      (max_lng - s.ecl_lng) - 2 * Real.pi := by ring
  rw [e1] at hA
  rw [e2] at hC
  have hk : 750 / (2 * Real.pi) * (2 * Real.pi) = 750 := by
    field_simp
  have hiden : 750 / (2 * Real.pi) * ((max_lng - s.ecl_lng) + 2 * Real.pi) =
      750 / (2 * Real.pi) * ((max_lng - s.ecl_lng) - 2 * Real.pi) +
        2 * (750 / (2 * Real.pi) * (2 * Real.pi)) := by ring
  rw [hiden, hk] at hA
  linarith

open Classical in
/-- Claim C4 as amended: every catalog star is considered at the three
longitude offsets `-2π, 0, +2π`; an instance is kept exactly when its
drawing x lies strictly inside `(0, bleed width)` and the star is brighter
than magnitude 3.5 or referenced by a figure line — and at most two (not
always exactly one) instances of a star can be kept. -/
theorem star_three_offsets (used : List Int) (max_lng : ℝ) (s : Star) :
    (∀ e, e ∈ starCircles used max_lng s ↔
      ∃ o, o ∈ ([-2 * Real.pi, 0, 2 * Real.pi] : List ℝ) ∧
        (0 < (ecl_to_dwg (s.ecl_lng + o) s.ecl_lat max_lng).1 ∧
          (ecl_to_dwg (s.ecl_lng + o) s.ecl_lat max_lng).1 < (dwg_bleed_width : ℝ)) ∧
        (s.vmag < 3.5 ∨ s.hip_id ∈ used) ∧
        e = SvgElem.circle (ecl_to_dwg (s.ecl_lng + o) s.ecl_lat max_lng).1
            (ecl_to_dwg (s.ecl_lng + o) s.ecl_lat max_lng).2 s.radius) ∧
    (starCircles used max_lng s).length ≤ 2 := by
  constructor
  · intro e
    simp only [starCircles, catMap, List.append_nil, List.mem_append, mem_ite_list]
    constructor
    · rintro (h | h | h)
      · exact ⟨-2 * Real.pi, by simp, h⟩
      · exact ⟨0, by simp, h⟩
      · exact ⟨2 * Real.pi, by simp, h⟩
    · rintro ⟨o, ho, hc⟩
      rcases List.mem_cons.mp ho with rfl | ho
      · exact Or.inl hc
      rcases List.mem_cons.mp ho with rfl | ho
      · exact Or.inr (Or.inl hc)
      rcases List.mem_cons.mp ho with rfl | ho
      · exact Or.inr (Or.inr hc)
      · cases ho
  · simp only [starCircles, catMap, List.append_nil, List.length_append]
    by_cases hA : 0 < (ecl_to_dwg (s.ecl_lng + -2 * Real.pi) s.ecl_lat max_lng).1 ∧
        (ecl_to_dwg (s.ecl_lng + -2 * Real.pi) s.ecl_lat max_lng).1 < (dwg_bleed_width : ℝ)
    · by_cases hC : 0 < (ecl_to_dwg (s.ecl_lng + 2 * Real.pi) s.ecl_lat max_lng).1 ∧
          (ecl_to_dwg (s.ecl_lng + 2 * Real.pi) s.ecl_lat max_lng).1 < (dwg_bleed_width : ℝ)
      · exact absurd ⟨hA.2, hC.1⟩ (not_both_extremes s max_lng)
      · rw [if_neg hC]
        have l1 := len_ite_list (0 < (ecl_to_dwg (s.ecl_lng + -2 * Real.pi) s.ecl_lat max_lng).1 ∧
            (ecl_to_dwg (s.ecl_lng + -2 * Real.pi) s.ecl_lat max_lng).1 < (dwg_bleed_width : ℝ))
          (s.vmag < 3.5 ∨ s.hip_id ∈ used)
          (SvgElem.circle (ecl_to_dwg (s.ecl_lng + -2 * Real.pi) s.ecl_lat max_lng).1
            (ecl_to_dwg (s.ecl_lng + -2 * Real.pi) s.ecl_lat max_lng).2 s.radius)
        have l2 := len_ite_list (0 < (ecl_to_dwg (s.ecl_lng + 0) s.ecl_lat max_lng).1 ∧
            (ecl_to_dwg (s.ecl_lng + 0) s.ecl_lat max_lng).1 < (dwg_bleed_width : ℝ))
          (s.vmag < 3.5 ∨ s.hip_id ∈ used)
          (SvgElem.circle (ecl_to_dwg (s.ecl_lng + 0) s.ecl_lat max_lng).1
            (ecl_to_dwg (s.ecl_lng + 0) s.ecl_lat max_lng).2 s.radius)
        simp only [List.length_nil]
        omega
    · rw [if_neg hA]
      have l2 := len_ite_list (0 < (ecl_to_dwg (s.ecl_lng + 0) s.ecl_lat max_lng).1 ∧
          (ecl_to_dwg (s.ecl_lng + 0) s.ecl_lat max_lng).1 < (dwg_bleed_width : ℝ))
        (s.vmag < 3.5 ∨ s.hip_id ∈ used)
        (SvgElem.circle (ecl_to_dwg (s.ecl_lng + 0) s.ecl_lat max_lng).1
          (ecl_to_dwg (s.ecl_lng + 0) s.ecl_lat max_lng).2 s.radius)
      have l3 := len_ite_list (0 < (ecl_to_dwg (s.ecl_lng + 2 * Real.pi) s.ecl_lat max_lng).1 ∧
          (ecl_to_dwg (s.ecl_lng + 2 * Real.pi) s.ecl_lat max_lng).1 < (dwg_bleed_width : ℝ))
        (s.vmag < 3.5 ∨ s.hip_id ∈ used)
        (SvgElem.circle (ecl_to_dwg (s.ecl_lng + 2 * Real.pi) s.ecl_lat max_lng).1
          (ecl_to_dwg (s.ecl_lng + 2 * Real.pi) s.ecl_lat max_lng).2 s.radius)
      simp only [List.length_nil]
      omega

lemma atan2_zero_one : atan2 0 1 = 0 := by
  unfold atan2
  rw [if_pos (by norm_num : (0 : ℝ) < 1)]
  norm_num [Real.arctan_zero]

lemma mkStar_origin_lng : (mkStar 1 0 0 0).ecl_lng = 0 := by
  show atan2 (Real.cos 0 * Real.sin 0 * Real.cos (23.4376 * Real.pi / 180) +
      Real.sin 0 * Real.sin (23.4376 * Real.pi / 180)) (Real.cos 0 * Real.cos 0) = 0
  simp only [Real.sin_zero, Real.cos_zero, mul_zero, zero_mul, add_zero, zero_add,
    mul_one, one_mul]
  exact atan2_zero_one

lemma mkStar_origin_lat : (mkStar 1 0 0 0).ecl_lat = 0 := by
  show atan2 (Real.sin 0 * Real.cos (23.4376 * Real.pi / 180) -
      Real.cos 0 * Real.sin 0 * Real.sin (23.4376 * Real.pi / 180))
      (Real.sqrt ((Real.cos 0 * Real.cos 0) ^ 2 +
        (Real.cos 0 * Real.sin 0 * Real.cos (23.4376 * Real.pi / 180) +
          Real.sin 0 * Real.sin (23.4376 * Real.pi / 180)) ^ 2)) = 0
  simp only [Real.sin_zero, Real.cos_zero, mul_zero, zero_mul, add_zero, zero_add,
    sub_zero, mul_one, one_mul, one_pow]
  rw [show (0 : ℝ) ^ 2 = 0 by norm_num, add_zero, Real.sqrt_one]
  exact atan2_zero_one

open Classical in
/-- Claim C4 counterexample: the star at the ecliptic origin on the chart
with reference longitude `4π/25` is kept at two offsets (drawing x `60` and
`810` both lie strictly inside `(0, 850)`), refuting the claimed uniqueness
of the kept instance. -/
theorem star_unique_instance_cex :
    (starCircles [] (4 * Real.pi / 25) (mkStar 1 0 0 0)).length = 2 := by
  have hpi := Real.pi_pos
  have hd1 : (ecl_to_dwg ((mkStar 1 0 0 0).ecl_lng + -2 * Real.pi)
      (mkStar 1 0 0 0).ecl_lat (4 * Real.pi / 25)).1 = 810 := by
    rw [mkStar_origin_lng]
    unfold ecl_to_dwg dwg_scale
    rw [dwg_sky_width_real]
    field_simp
    ring
  have hd2 : (ecl_to_dwg ((mkStar 1 0 0 0).ecl_lng + 0)
      (mkStar 1 0 0 0).ecl_lat (4 * Real.pi / 25)).1 = 60 := by
    rw [mkStar_origin_lng]
    unfold ecl_to_dwg dwg_scale
    rw [dwg_sky_width_real]
    field_simp
    ring
  have hd3 : (ecl_to_dwg ((mkStar 1 0 0 0).ecl_lng + 2 * Real.pi)
      (mkStar 1 0 0 0).ecl_lat (4 * Real.pi / 25)).1 = -690 := by
    rw [mkStar_origin_lng]
    unfold ecl_to_dwg dwg_scale
    rw [dwg_sky_width_real]
    field_simp
    ring
  have hv : (mkStar 1 0 0 0).vmag < 3.5 ∨ (mkStar 1 0 0 0).hip_id ∈ ([] : List Int) := by
    left
    show (0 : ℝ) < 3.5
    norm_num
  have c1 : 0 < (ecl_to_dwg ((mkStar 1 0 0 0).ecl_lng + -2 * Real.pi)
      (mkStar 1 0 0 0).ecl_lat (4 * Real.pi / 25)).1 ∧
      (ecl_to_dwg ((mkStar 1 0 0 0).ecl_lng + -2 * Real.pi)
        (mkStar 1 0 0 0).ecl_lat (4 * Real.pi / 25)).1 < (dwg_bleed_width : ℝ) :=
    ⟨by rw [hd1]; norm_num, by rw [hd1, dwg_bleed_width_real]; norm_num⟩
  have c2 : 0 < (ecl_to_dwg ((mkStar 1 0 0 0).ecl_lng + 0)
      (mkStar 1 0 0 0).ecl_lat (4 * Real.pi / 25)).1 ∧
      (ecl_to_dwg ((mkStar 1 0 0 0).ecl_lng + 0)
        (mkStar 1 0 0 0).ecl_lat (4 * Real.pi / 25)).1 < (dwg_bleed_width : ℝ) :=
    ⟨by rw [hd2]; norm_num, by rw [hd2, dwg_bleed_width_real]; norm_num⟩
  have c3 : ¬ (0 < (ecl_to_dwg ((mkStar 1 0 0 0).ecl_lng + 2 * Real.pi)
      (mkStar 1 0 0 0).ecl_lat (4 * Real.pi / 25)).1 ∧
      (ecl_to_dwg ((mkStar 1 0 0 0).ecl_lng + 2 * Real.pi)
        (mkStar 1 0 0 0).ecl_lat (4 * Real.pi / 25)).1 < (dwg_bleed_width : ℝ)) := by
    rintro ⟨hpos, _⟩
    rw [hd3] at hpos
    norm_num at hpos
  simp only [starCircles, catMap, List.append_nil]
  rw [if_pos c1, if_pos c2, if_neg c3, if_pos hv, if_pos hv]
  simp

/-! ## Claim C9 (twelve output files, four layers each) -/

lemma mapE_forall2 {α β : Type} (f : α → Except PyError β) :
    ∀ (l : List α) (ys : List β), mapE f l = Except.ok ys →
      List.Forall₂ (fun a y => f a = Except.ok y) l ys := by
  intro l
  induction l with
  | nil =>
    intro ys h
    simp only [mapE] at h
    cases h
    exact List.Forall₂.nil
  | cons a r ih =>
    intro ys h
    simp only [mapE] at h
    cases hfa : f a with
    | error e => simp [hfa] at h
    | ok b =>
      simp only [hfa] at h
      cases hmr : mapE f r with
      | error e => simp [hmr] at h
      | ok bs =>
        simp only [hmr] at h
        cases h
        exact List.Forall₂.cons hfa (ih _ hmr)

lemma forall2_map_eq {α β γ : Type} {R : α → β → Prop} (g : α → γ) (f : β → γ)
    (hg : ∀ a y, R a y → f y = g a) :
    ∀ {l : List α} {ys : List β}, List.Forall₂ R l ys → ys.map f = l.map g := by
  intro l ys hf
  induction hf with
  | nil => rfl
  | cons hr _ ih => simp only [List.map_cons, hg _ _ hr, ih]

lemma forall2_mem_right {α β : Type} {R : α → β → Prop} :
    ∀ {l : List α} {ys : List β}, List.Forall₂ R l ys → ∀ y ∈ ys, ∃ a ∈ l, R a y := by
  intro l ys hf
  induction hf with
  | nil => intro y hy; cases hy
  | cons hr _ ih =>
    intro y hy
    rcases List.mem_cons.mp hy with rfl | hy
    · exact ⟨_, List.mem_cons_self _ _, hr⟩
    · rcases ih y hy with ⟨a, ha, hr2⟩
      exact ⟨a, List.mem_cons_of_mem _ ha, hr2⟩

lemma renderChart_ok_shape (catalog : List (Int × Star)) (used : List Int)
    (figd : List (String × (List Seg × ℝ))) (a : String) (c : Chart)
    (h : renderChart catalog used figd a = Except.ok c) :
    c.filename = "ecliptic_chart_beginning_with_" ++ pyLower a ++ ".svg" ∧
    c.groups.map SvgGroup.id = ["background", "figures", "stars", "ecliptic"] := by
  unfold renderChart at h
  split at h
  · cases h
  · split at h
    · cases h
    · cases h
      exact ⟨rfl, rfl⟩

/-- Claim C9: a run that completes produces exactly 12 charts, one per
zodiac anchor in sorted name order, named
`ecliptic_chart_beginning_with_<anchor lowercased>.svg`, each holding
exactly the four groups Background, Figures, Stars, Ecliptic (ids
lowercased by `make_svg_layer`) in that order. -/
theorem charts_output (catalog : List (Int × Star))
    (figures : List (String × List (Int × Int))) (used : List Int)
    (charts : List Chart) (h : mainCharts catalog figures used = Except.ok charts) :
    charts.length = 12 ∧
    charts.map Chart.filename =
      ["ecliptic_chart_beginning_with_aqr.svg",
       "ecliptic_chart_beginning_with_ari.svg",
       "ecliptic_chart_beginning_with_cap.svg",
       "ecliptic_chart_beginning_with_cnc.svg",
       "ecliptic_chart_beginning_with_gem.svg",
       "ecliptic_chart_beginning_with_leo.svg",
       "ecliptic_chart_beginning_with_lib.svg",
       "ecliptic_chart_beginning_with_psc.svg",
       "ecliptic_chart_beginning_with_sco.svg",
       "ecliptic_chart_beginning_with_sgr.svg",
       "ecliptic_chart_beginning_with_tau.svg",
       "ecliptic_chart_beginning_with_vir.svg"] ∧
    ∀ c ∈ charts, c.groups.map SvgGroup.id =
      ["background", "figures", "stars", "ecliptic"] := by
  unfold mainCharts at h
  split at h
  · cases h
  · have hf := mapE_forall2 _ _ _ h
    refine ⟨?_, ?_, ?_⟩
    · rw [← List.Forall₂.length_eq hf]
      decide
    · have hmap := forall2_map_eq
        (fun a => "ecliptic_chart_beginning_with_" ++ pyLower a ++ ".svg") Chart.filename
        (fun a y hy => (renderChart_ok_shape _ _ _ _ _ hy).1) hf
      rw [hmap]
      decide
    · intro c hc
      rcases forall2_mem_right hf c hc with ⟨a, _, hr⟩
      exact (renderChart_ok_shape _ _ _ _ _ hr).2

/-- Witness catalog: two stars at the origin of the equatorial grid. -/
noncomputable def wCatalog : List (Int × Star) :=
  [(1, mkStar 1 0 0 0), (2, mkStar 2 0 0 0)]

/-- Witness figure set: every zodiac figure is the single segment `(1, 2)`. -/
def wFigures : List (String × List (Int × Int)) :=
  zodiac.map (fun n => (n, [(1, 2)]))

/-- Witness for C9 on the fixture catalog and figure set: the run completes
and the 12 charts have the documented names and groups. -/
theorem charts_output_w :
    ∃ charts, mainCharts wCatalog wFigures [] = Except.ok charts ∧
      charts.length = 12 ∧
      charts.map Chart.filename =
        ["ecliptic_chart_beginning_with_aqr.svg",
         "ecliptic_chart_beginning_with_ari.svg",
         "ecliptic_chart_beginning_with_cap.svg",
         "ecliptic_chart_beginning_with_cnc.svg",
         "ecliptic_chart_beginning_with_gem.svg",
         "ecliptic_chart_beginning_with_leo.svg",
         "ecliptic_chart_beginning_with_lib.svg",
         "ecliptic_chart_beginning_with_psc.svg",
         "ecliptic_chart_beginning_with_sco.svg",
         "ecliptic_chart_beginning_with_sgr.svg",
         "ecliptic_chart_beginning_with_tau.svg",
         "ecliptic_chart_beginning_with_vir.svg"] ∧
      ∀ c ∈ charts, c.groups.map SvgGroup.id =
        ["background", "figures", "stars", "ecliptic"] := by
  obtain ⟨charts, hc⟩ : ∃ charts, mainCharts wCatalog wFigures [] = Except.ok charts :=
    ⟨_, rfl⟩
  exact ⟨charts, hc, charts_output wCatalog wFigures [] charts hc⟩

end LasEcliptic
